import Mathlib

/-!
Verification of the secure-agent-flow core pipeline against its source.

The development shallowly embeds the three custom tools of the repository:

* `custom_tools/sca_tool.py` — `SCATool.wait_for_job_completion`, the bounded
  job-status polling loop;
* `custom_tools/custom_role_creator.py` — `AWSRoleCreator._run`, the
  idempotent role provisioner, and
  `create_least_privilege_role_from_events`, the permission synthesizer;
* `custom_tools/role_fetcher.py` — `CloudTrailEventsFetcher`, the evidence
  collector and the protected-user cleanup step.

Remote calls (boto3 / requests) are modeled as environment parameters whose
results are either a returned value, a caught client error, or a raised
exception, matching exactly which exception classes each Python handler
catches.  Python dict/list payloads are modeled by the `Json` type below;
Python truthiness of optional strings is modeled by `pyTruthyStr`.
-/

set_option autoImplicit false

/-- JSON-like values: the shape of the dict/list payloads the tools build,
return, and serialize with json.dumps. -/
inductive Json where
  | s (v : String)
  | n (v : Int)
  | b (v : Bool)
  | null
  | arr (items : List Json)
  | obj (fields : List (String × Json))

/-- Association-list lookup, the model of Python dict indexing and dict.get
(first binding wins, as the tools never build duplicate keys). -/
def jlookup : List (String × Json) → String → Option Json
  | [], _ => none
  | (k, v) :: rest, key => if k = key then some v else jlookup rest key

/-- dict.get on a Json object; none when the key is absent or the value is
not an object. -/
def Json.get (j : Json) (key : String) : Option Json :=
  match j with
  | .obj fields => jlookup fields key
  | _ => none

/-- Whether a serialized result contains the given top-level key. -/
def hasKey (j : Json) (key : String) : Bool :=
  (j.get key).isSome

/-- Python truthiness of an optional string: None and the empty string are
falsy, a non-empty string is truthy (and is returned). -/
def pyTruthyStr : Option String → Option String
  | none => none
  | some v => if v = "" then none else some v

/-! ## Job Poller: `SCATool.wait_for_job_completion` (sca_tool.py lines 259-289)

The status API (`get_job_status_debug_mode`) is modeled as a function from
the index of the status call to either a payload (`Except.ok`) or a raised
exception (`Except.error`).  Time is discrete: each `time.sleep(poll_interval)`
advances the elapsed counter by `poll_interval`; the status calls themselves
take no model time. -/

/-- ASCII lowercasing, the model of Python str.lower on the ASCII status
strings the job API uses. -/
def lowerString (s : String) : String := String.mk (s.data.map Char.toLower)

/-- The result of `status_response.get("status", "").lower()`: `some` of the
lowercased status string, or `none` when evaluating it raises (the payload is
not a dict, or the status value is not a string). -/
def statusLower (j : Json) : Option String :=
  match j with
  | .obj fields =>
    match jlookup fields "status" with
    | none => some ""
    | some (.s v) => some (lowerString v)
    | some _ => none
  | _ => none

/-- Outcome of one body of the polling `while` loop. -/
inductive LoopStep where
  | done (payload : Json)
  | again

/-- One iteration of the polling loop (sca_tool.py lines 264-283).  Only a
`success` status returns from the loop.  A `failure` status raises
RuntimeError inside the `try` block, but the enclosing `except Exception`
at line 281 catches that very RuntimeError, sleeps, and re-polls — so the
failure branch, exceptions from the status call, `inprogress`, and unknown
statuses all land in the sleep-and-retry path. -/
def pollOnce (statusApi : Nat → Except String Json) (k : Nat) : LoopStep :=
  match statusApi k with
  | .error _ => .again
  | .ok resp =>
    match statusLower resp with
    | none => .again
    | some st => if st = "success" then .done resp else .again

/-- Final result of `wait_for_job_completion`.  `elapsed` is the total slept
time and `lastCall` the index of the last status call made. -/
inductive WaitOutcome where
  | finished (payload : Json) (elapsed lastCall : Nat)
  | timedOut (payload : Json) (elapsed lastCall : Nat)
  | failedAfterTimeout (payload : Json) (elapsed lastCall : Nat)
  | raised (msg : String) (elapsed lastCall : Nat)
  | fuelOut

/-- The single final status check after budget exhaustion (sca_tool.py lines
286-289): a `failure` status raises RuntimeError (modeled as
`failedAfterTimeout`), any other status payload is returned as-is, and an
exception from the status call propagates. -/
def finalCheck (statusApi : Nat → Except String Json) (k t : Nat) : WaitOutcome :=
  match statusApi k with
  | .error m => .raised m t k
  | .ok resp =>
    match statusLower resp with
    | none => .raised "AttributeError" t k
    | some st =>
      if st = "failure" then .failedAfterTimeout resp t k else .timedOut resp t k

/-- The polling loop: `while time.time() - start_time < max_wait_time`.
`fuel` bounds the recursion; it is consulted only when the loop condition
holds, and `wait_for_job_completion` supplies enough fuel that it is never
exhausted for a positive poll interval. -/
def waitAux (statusApi : Nat → Except String Json) (maxWait poll : Nat) :
    Nat → Nat → Nat → WaitOutcome
  | 0, t, k =>
    if t < maxWait then .fuelOut else finalCheck statusApi k t
  | fuel + 1, t, k =>
    if t < maxWait then
      match pollOnce statusApi k with
      | .done resp => .finished resp t k
      | .again => waitAux statusApi maxWait poll fuel (t + poll) (k + 1)
    else finalCheck statusApi k t

/-- `SCATool.wait_for_job_completion(job_id, max_wait_time, poll_interval)`.
The defaults in the source are `max_wait_time=300`, `poll_interval=10`. -/
def wait_for_job_completion (statusApi : Nat → Except String Json)
    (maxWait poll : Nat) : WaitOutcome :=
  waitAux statusApi maxWait poll maxWait 0 0

/-- A status payload reporting failure, as the job status API would return it. -/
def failurePayload : Json := Json.obj [("status", Json.s "Failure")]

/-- A status API whose every response reports failure. -/
def constFailureApi : Nat → Except String Json := fun _ => Except.ok failurePayload

/-- A status payload reporting the job still in progress. -/
def inProgressPayload : Json := Json.obj [("status", Json.s "InProgress")]

/-- A status API whose every response reports in-progress. -/
def constInProgressApi : Nat → Except String Json := fun _ => Except.ok inProgressPayload

/-- Helper: the final status check produces `failedAfterTimeout` only on a
payload the status API actually returned, whose status string is failure. -/
theorem finalCheck_failed (statusApi : Nat → Except String Json) (k t : Nat)
    (p : Json) (t' k' : Nat)
    (h : finalCheck statusApi k t = WaitOutcome.failedAfterTimeout p t' k') :
    statusApi k' = Except.ok p ∧ statusLower p = some "failure" := by
  unfold finalCheck at h
  split at h
  · simp at h
  next resp heq =>
    split at h
    · simp at h
    next st hst =>
      split at h
      next hfail =>
        cases h
        subst hfail
        exact ⟨heq, hst⟩
      · simp at h

/-- Helper: anywhere in the polling recursion, a `failedAfterTimeout` outcome
carries a payload returned by the status API with status failure. -/
theorem waitAux_failed (statusApi : Nat → Except String Json) (maxWait poll : Nat) :
    ∀ fuel t k p t' k',
      waitAux statusApi maxWait poll fuel t k = WaitOutcome.failedAfterTimeout p t' k' →
      statusApi k' = Except.ok p ∧ statusLower p = some "failure" := by
  intro fuel
  induction fuel with
  | zero =>
    intro t k p t' k' h
    unfold waitAux at h
    split at h
    · simp at h
    · exact finalCheck_failed _ _ _ _ _ _ h
  | succ fuel ih =>
    intro t k p t' k' h
    unfold waitAux at h
    split at h
    · split at h
      · simp at h
      · exact ih _ _ _ _ _ h
    · exact finalCheck_failed _ _ _ _ _ _ h

/-- Helper: when every status check reports in-progress, the loop always runs
to budget exhaustion and returns the final check payload, with total slept
time below `maxWait + poll`. -/
theorem waitAux_inprogress (statusApi : Nat → Except String Json) (maxWait poll : Nat)
    (hall : ∀ j, ∃ p, statusApi j = Except.ok p ∧ statusLower p = some "inprogress") :
    ∀ fuel t k, maxWait ≤ t + fuel * poll → t < maxWait + poll →
      ∃ p t' k', waitAux statusApi maxWait poll fuel t k = WaitOutcome.timedOut p t' k' ∧
        statusApi k' = Except.ok p ∧ statusLower p = some "inprogress" ∧ t' < maxWait + poll := by
  intro fuel
  induction fuel with
  | zero =>
    intro t k hle hlt
    have ht : ¬ t < maxWait := by omega
    obtain ⟨p, hp, hst⟩ := hall k
    refine ⟨p, t, k, ?_, hp, hst, hlt⟩
    simp [waitAux, ht, finalCheck, hp, hst]
  | succ fuel ih =>
    intro t k hle hlt
    by_cases ht : t < maxWait
    · obtain ⟨p, hp, hst⟩ := hall k
      have hpoll : pollOnce statusApi k = LoopStep.again := by
        simp [pollOnce, hp, hst]
      have hle' : maxWait ≤ (t + poll) + fuel * poll := by
        rw [Nat.succ_mul] at hle
        linarith
      obtain ⟨p', t', k', heq, hp', hst', hlt'⟩ :=
        ih (t + poll) (k + 1) hle' (by omega)
      refine ⟨p', t', k', ?_, hp', hst', hlt'⟩
      simpa [waitAux, ht, hpoll] using heq
    · obtain ⟨p, hp, hst⟩ := hall k
      refine ⟨p, t, k, ?_, hp, hst, hlt⟩
      simp [waitAux, ht, finalCheck, hp, hst]

/-- C5: for a job that never leaves InProgress (every status check, including
the final one after budget exhaustion, reports InProgress),
`wait_for_job_completion` returns the last observed non-terminal status
payload without raising, with total wait below `maxWait` plus one poll
interval; and a JobFailure after budget exhaustion arises only when the
single final status check shows Failure. -/
theorem c5_wait_budget_exhaustion (statusApi : Nat → Except String Json)
    (maxWait poll : Nat) (hpoll : 0 < poll) :
    ((∀ j, ∃ p, statusApi j = Except.ok p ∧ statusLower p = some "inprogress") →
      ∃ p t k, wait_for_job_completion statusApi maxWait poll = WaitOutcome.timedOut p t k ∧
        statusApi k = Except.ok p ∧ statusLower p = some "inprogress" ∧ t < maxWait + poll) ∧
    (∀ p t k,
      wait_for_job_completion statusApi maxWait poll = WaitOutcome.failedAfterTimeout p t k →
      statusApi k = Except.ok p ∧ statusLower p = some "failure") := by
  constructor
  · intro hall
    have h0 : maxWait ≤ 0 + maxWait * poll := by
      have := Nat.le_mul_of_pos_right maxWait hpoll
      omega
    exact waitAux_inprogress statusApi maxWait poll hall maxWait 0 0 h0 (by omega)
  · intro p t k h
    exact waitAux_failed statusApi maxWait poll maxWait 0 0 p t k h

/-- Witness for C5: the constant-InProgress status API with budget 30 and
poll interval 10 returns a timed-out in-progress payload within 40. -/
theorem c5_wait_budget_exhaustion_witness :
    (0 < 10) ∧
    (∃ p t k, wait_for_job_completion constInProgressApi 30 10 = WaitOutcome.timedOut p t k ∧
      constInProgressApi k = Except.ok p ∧ statusLower p = some "inprogress" ∧ t < 30 + 10) :=
  ⟨by decide,
    (c5_wait_budget_exhaustion constInProgressApi 30 10 (by decide)).1
      (fun _ => ⟨inProgressPayload, rfl, rfl⟩)⟩

/-- C2 (code bug): with every status check reporting Failure and the default
budget (max_wait_time 300, poll_interval 10), the loop does NOT raise at the
first Failure observation: the RuntimeError raised at line 273 of sca_tool.py
is caught by the enclosing `except Exception` at line 281, so the loop sleeps
and re-polls for the whole budget (status calls 0 through 29, 300 seconds
slept) and the JobFailure finally raised comes from the single post-timeout
check (call index 30) — refuting the claim that a Failure seen during the
polling loop raises immediately instead of continuing to poll. -/
theorem c2_failure_status_keeps_polling :
    wait_for_job_completion constFailureApi 300 10 =
      WaitOutcome.failedAfterTimeout failurePayload 300 30 := rfl

/-! ## Resource Provisioner: `AWSRoleCreator._run` (custom_role_creator.py lines 118-258)

The IAM/STS calls are modeled by an environment over an abstract world state:
each call may return a value, raise a botocore ClientError (with an error
code, the only exception class the tool catches selectively), or raise any
other exception.  The run function additionally returns the trace of remote
calls made, in order. -/

/-- Outcome of one remote AWS call. -/
inductive COutcome (α : Type) where
  | ok (v : α)
  | clientError (code msg : String)
  | exc (msg : String)

/-- Does the outcome model an exception that is not a ClientError. -/
def COutcome.isExc {α : Type} : COutcome α → Bool
  | .exc _ => true
  | _ => false

/-- The remote calls `_run` can make.  `createRole` and `putRolePolicy` are
the mutating ones. -/
inductive Call where
  | assumeRole
  | getRole (roleName : String)
  | createRole (roleName : String)
  | putRolePolicy (roleName policyName : String)

/-- Whether a call mutates remote state. -/
def Call.isMutating : Call → Bool
  | .createRole _ => true
  | .putRolePolicy _ _ => true
  | _ => false

/-- Environment of remote calls for the role creator, over world state `σ`.
`getRole` receives the role name; `createRole` receives name, trust policy
document, clamped max session duration and optional description and returns
the new role ARN; `putRolePolicy` receives role name, policy name and policy
document. -/
structure RCEnv (σ : Type) where
  assumeRole : σ → COutcome Unit × σ
  getRole : String → σ → COutcome Json × σ
  createRole : String → Json → Int → Option String → σ → COutcome String × σ
  putRolePolicy : String → String → Json → σ → COutcome Unit × σ

/-- Input of `AWSRoleCreator._run`, with the source defaults. -/
structure RunInput where
  role_name : String
  trust_policy : List (String × Json)
  permission_policies : List Json
  description : Option String := none
  max_session_duration : Int := 3600
  customer_account_id : Option String := none
  cross_account_role_name : String := "CyberArkRoleSCA-6c116dd0-9300-11f0-bd68-0e66c6d684e1"
  external_id : Option String := none

/-- MaxSessionDuration clamping (lines 142-147): below 3600 becomes 3600,
above 43200 becomes 43200. -/
def clampSessionDuration (d : Int) : Int :=
  if d < 3600 then 3600 else if d > 43200 then 43200 else d

/-- The generic error result of the outer `except Exception` handler
(lines 252-258). -/
def unexpectedErr (m : String) (sessionInfo : Json) : Json :=
  Json.obj [("error", Json.s ("Unexpected error: " ++ m)),
            ("cross_account_info", sessionInfo)]

/-- The error result of the outer `except ClientError` handler
(lines 244-250). -/
def clientErrResult (code msg : String) (sessionInfo : Json) : Json :=
  Json.obj [("error", Json.s ("AWS IAM Error: " ++ code ++ " - " ++ msg)),
            ("cross_account_info", sessionInfo)]

/-- The policy attachment loop (lines 213-228): one `put_role_policy` per
permission policy, named roleNamePolicy(i+1); a ClientError is logged and
skipped (`continue`), keeping the policy out of `attached_policies`; any
other exception aborts the loop and propagates (only ClientError is caught).
Returns the attached policy names in order, the final state, and the trace
extended with every put call made. -/
def attachPolicies {σ : Type} (env : RCEnv σ) (roleName : String) :
    List Json → Nat → σ → List Call → Except String (List String) × σ × List Call
  | [], _, s, tr => (Except.ok [], s, tr)
  | p :: rest, i, s, tr =>
    let policyName := roleName ++ "Policy" ++ toString (i + 1)
    let out := env.putRolePolicy roleName policyName p s
    let tr1 := tr ++ [Call.putRolePolicy roleName policyName]
    match out.1 with
    | .ok _ =>
      match attachPolicies env roleName rest (i + 1) out.2 tr1 with
      | (Except.ok names, s2, tr2) => (Except.ok (policyName :: names), s2, tr2)
      | other => other
    | .clientError _ _ => attachPolicies env roleName rest (i + 1) out.2 tr1
    | .exc m => (Except.error m, out.2, tr1)

/-- Role creation and policy attachment (lines 196-242), entered when the
existence check reported NoSuchEntity. -/
def createAndAttach {σ : Type} (env : RCEnv σ) (inp : RunInput) (msd : Int)
    (sessionInfo : Json) (acctLabel : String) (s : σ) (tr : List Call) :
    Json × σ × List Call :=
  let out := env.createRole inp.role_name (Json.obj inp.trust_policy) msd inp.description s
  let tr1 := tr ++ [Call.createRole inp.role_name]
  match out.1 with
  | .clientError code m => (clientErrResult code m sessionInfo, out.2, tr1)
  | .exc m => (unexpectedErr m sessionInfo, out.2, tr1)
  | .ok arn =>
    match attachPolicies env inp.role_name inp.permission_policies 0 out.2 tr1 with
    | (Except.error m, s2, tr2) => (unexpectedErr m sessionInfo, s2, tr2)
    | (Except.ok attached, s2, tr2) =>
      (Json.obj [("status", Json.s "success"),
                 ("role_name", Json.s inp.role_name),
                 ("role_arn", Json.s arn),
                 ("attached_policies", Json.arr (attached.map Json.s)),
                 ("total_policies_attached", Json.n (Int.ofNat attached.length)),
                 ("message", Json.s ("Successfully created role " ++ inp.role_name)),
                 ("cross_account_info", sessionInfo),
                 ("created_in_account", Json.s acctLabel)], s2, tr2)

/-- The existence check (lines 177-194) followed by creation: an existing
role short-circuits to an already_exists result carrying the existing ARN
and role attributes; a ClientError with code NoSuchEntity falls through to
creation; any other ClientError or exception becomes an error result. -/
def checkExistingThenCreate {σ : Type} (env : RCEnv σ) (inp : RunInput) (msd : Int)
    (sessionInfo : Json) (acctLabel : String) (s : σ) (tr : List Call) :
    Json × σ × List Call :=
  let out := env.getRole inp.role_name s
  let tr1 := tr ++ [Call.getRole inp.role_name]
  match out.1 with
  | .ok roleObj =>
    match roleObj.get "Arn" with
    | some arnVal =>
      (Json.obj [("status", Json.s "already_exists"),
                 ("role_name", Json.s inp.role_name),
                 ("role_arn", arnVal),
                 ("role_details", roleObj),
                 ("cross_account_info", sessionInfo),
                 ("message", Json.s ("Role " ++ inp.role_name ++
                   " already exists in account " ++ acctLabel))], out.2, tr1)
    | none => (unexpectedErr "KeyError Arn" sessionInfo, out.2, tr1)
  | .clientError code m =>
    if code = "NoSuchEntity" then
      createAndAttach env inp msd sessionInfo acctLabel out.2 tr1
    else
      (Json.obj [("error", Json.s ("Error checking existing role: " ++ m)),
                 ("cross_account_info", sessionInfo)], out.2, tr1)
  | .exc m => (unexpectedErr m sessionInfo, out.2, tr1)

/-- `AWSRoleCreator._run` (lines 118-258): input validation, session-duration
clamping, optional cross-account role assumption, existence check, creation,
and policy attachment.  Returns the JSON result, the final world state, and
the trace of remote calls. -/
def AWSRoleCreator_run {σ : Type} (env : RCEnv σ) (inp : RunInput) (s : σ) :
    Json × σ × List Call :=
  if inp.role_name = "" then
    (Json.obj [("error", Json.s "Role name is required")], s, [])
  else if inp.trust_policy.isEmpty then
    (Json.obj [("error", Json.s "Trust policy is required")], s, [])
  else if inp.permission_policies.isEmpty then
    (Json.obj [("error", Json.s "At least one permission policy is required")], s, [])
  else
    let msd := clampSessionDuration inp.max_session_duration
    let localInfo := Json.obj [("cross_account", Json.b false)]
    match pyTruthyStr inp.customer_account_id with
    | none => checkExistingThenCreate env inp msd localInfo "local" s []
    | some acct =>
      let out := env.assumeRole s
      let tr1 := [Call.assumeRole]
      let roleArn := "arn:aws:iam::" ++ acct ++ ":role/" ++ inp.cross_account_role_name
      match out.1 with
      | .clientError _ m =>
        (Json.obj [("error", Json.s ("Failed to assume cross-account role " ++
            roleArn ++ ": " ++ m)),
          ("cross_account_info", Json.obj [("customer_account_id", Json.s acct),
            ("role_assumption_success", Json.b false)])], out.2, tr1)
      | .exc m => (unexpectedErr m localInfo, out.2, tr1)
      | .ok _ =>
        let si := Json.obj [("cross_account", Json.b true),
          ("customer_account_id", Json.s acct),
          ("assumed_role", Json.s roleArn),
          ("role_assumption_success", Json.b true)]
        checkExistingThenCreate env inp msd si acct out.2 tr1

/-- A result in the shape `_run` promises: an error object, or a status of
success or already_exists. -/
def goodResult (j : Json) : Prop :=
  hasKey j "error" = true ∨
  j.get "status" = some (Json.s "success") ∨
  j.get "status" = some (Json.s "already_exists")

/-- Helper: creation plus attachment always yields a good result. -/
theorem createAndAttach_good {σ : Type} (env : RCEnv σ) (inp : RunInput) (msd : Int)
    (si : Json) (al : String) (s : σ) (tr : List Call) :
    goodResult (createAndAttach env inp msd si al s tr).1 := by
  unfold createAndAttach
  try dsimp only
  split <;>
    first
      | (simp [goodResult, hasKey, Json.get, jlookup, clientErrResult, unexpectedErr]; done)
      | (split <;> simp [goodResult, hasKey, Json.get, jlookup, unexpectedErr])

/-- Helper: the existence check followed by creation always yields a good
result. -/
theorem checkExistingThenCreate_good {σ : Type} (env : RCEnv σ) (inp : RunInput)
    (msd : Int) (si : Json) (al : String) (s : σ) (tr : List Call) :
    goodResult (checkExistingThenCreate env inp msd si al s tr).1 := by
  unfold checkExistingThenCreate
  try dsimp only
  split <;>
    first
      | (simp [goodResult, hasKey, Json.get, jlookup, unexpectedErr]; done)
      | (split <;>
          first
            | (simp [goodResult, hasKey, Json.get, jlookup, unexpectedErr]; done)
            | exact createAndAttach_good env inp msd si al _ _)

/-- C10: `AWSRoleCreator._run` is total — for every input and every behavior
of the remote calls (including every validation failure, ClientError, and
raised exception) it returns a JSON result that contains an error key or a
status key whose value is success or already_exists; no exception propagates
to the caller. -/
theorem c10_run_total_result_shape {σ : Type} (env : RCEnv σ) (inp : RunInput) (s : σ) :
    hasKey (AWSRoleCreator_run env inp s).1 "error" = true ∨
    (AWSRoleCreator_run env inp s).1.get "status" = some (Json.s "success") ∨
    (AWSRoleCreator_run env inp s).1.get "status" = some (Json.s "already_exists") := by
  show goodResult (AWSRoleCreator_run env inp s).1
  unfold AWSRoleCreator_run
  try dsimp only
  split
  · simp [goodResult, hasKey, Json.get, jlookup]
  split
  · simp [goodResult, hasKey, Json.get, jlookup]
  split
  · simp [goodResult, hasKey, Json.get, jlookup]
  split
  · exact checkExistingThenCreate_good env inp _ _ _ s []
  · split
    · simp [goodResult, hasKey, Json.get, jlookup]
    · simp [goodResult, hasKey, Json.get, jlookup, unexpectedErr]
    · exact checkExistingThenCreate_good env inp _ _ _ _ _

/-- A stateless environment for the creation path: the role does not exist,
role creation succeeds, and attaching the first policy (rPolicy1) fails with
a ClientError while every other attachment succeeds. -/
def c1Env : RCEnv Unit where
  assumeRole := fun s => (COutcome.ok (), s)
  getRole := fun _ s => (COutcome.clientError "NoSuchEntity" "role not found", s)
  createRole := fun _ _ _ _ s => (COutcome.ok "arn:aws:iam::123456789012:role/r", s)
  putRolePolicy := fun _ policyName _ s =>
    (if policyName = "rPolicy1" then COutcome.clientError "MalformedPolicyDocument" "bad document"
     else COutcome.ok (), s)

/-- A valid spec with two permission policies. -/
def c1Input : RunInput :=
  { role_name := "r",
    trust_policy := [("Version", Json.s "2012-10-17")],
    permission_policies := [Json.obj [("k1", Json.s "v1")], Json.obj [("k2", Json.s "v2")]] }

/-- C1 counterexample: with a valid two-statement spec whose first attachment
fails with a ClientError, `_run` attempts both attachments (both put calls
appear in the trace) but reports final status "success" with only one policy
attached — there is no PartialFailure status in the code, refuting the claim
that the final status is PartialFailure when an attachment fails. -/
theorem c1_counterexample :
    (AWSRoleCreator_run c1Env c1Input ()).1.get "status" = some (Json.s "success") ∧
    ¬ (AWSRoleCreator_run c1Env c1Input ()).1.get "status" = some (Json.s "PartialFailure") ∧
    (AWSRoleCreator_run c1Env c1Input ()).1.get "total_policies_attached" = some (Json.n 1) ∧
    (AWSRoleCreator_run c1Env c1Input ()).1.get "attached_policies" =
      some (Json.arr [Json.s "rPolicy2"]) ∧
    (AWSRoleCreator_run c1Env c1Input ()).2.2 =
      [Call.getRole "r", Call.createRole "r",
       Call.putRolePolicy "r" "rPolicy1", Call.putRolePolicy "r" "rPolicy2"] := by
  refine ⟨rfl, ?_, rfl, rfl, rfl⟩
  intro h
  rw [show (AWSRoleCreator_run c1Env c1Input ()).1.get "status" =
        some (Json.s "success") from rfl] at h
  simp at h

/-- The put calls the attachment loop issues for a policy list starting at
index i: one per policy, named roleNamePolicy(i+1), in order. -/
def attachCalls (roleName : String) : Nat → List Json → List Call
  | _, [] => []
  | i, _ :: rest =>
    Call.putRolePolicy roleName (roleName ++ "Policy" ++ toString (i + 1)) ::
      attachCalls roleName (i + 1) rest

/-- Helper: when no attachment call raises a non-ClientError exception, the
attachment loop completes, returning some list of attached names and a trace
extended by exactly one put call per policy. -/
theorem attachPolicies_no_exc {σ : Type} (env : RCEnv σ) (roleName : String)
    (hput : ∀ pn p st, ((env.putRolePolicy roleName pn p st).1).isExc = false) :
    ∀ ps i s tr, ∃ names s2,
      attachPolicies env roleName ps i s tr =
        (Except.ok names, s2, tr ++ attachCalls roleName i ps) := by
  intro ps
  induction ps with
  | nil =>
    intro i s tr
    exact ⟨[], s, by simp [attachPolicies, attachCalls]⟩
  | cons p rest ih =>
    intro i s tr
    have hp := hput (roleName ++ "Policy" ++ toString (i + 1)) p s
    rcases hout : (env.putRolePolicy roleName (roleName ++ "Policy" ++ toString (i + 1)) p s).1
      with v | ⟨code, m⟩ | m
    · obtain ⟨names, s2, heq⟩ :=
        ih (i + 1) (env.putRolePolicy roleName (roleName ++ "Policy" ++ toString (i + 1)) p s).2
          (tr ++ [Call.putRolePolicy roleName (roleName ++ "Policy" ++ toString (i + 1))])
      refine ⟨(roleName ++ "Policy" ++ toString (i + 1)) :: names, s2, ?_⟩
      simp [attachPolicies, hout, heq, attachCalls]
    · obtain ⟨names, s2, heq⟩ :=
        ih (i + 1) (env.putRolePolicy roleName (roleName ++ "Policy" ++ toString (i + 1)) p s).2
          (tr ++ [Call.putRolePolicy roleName (roleName ++ "Policy" ++ toString (i + 1))])
      refine ⟨names, s2, ?_⟩
      simp [attachPolicies, hout, heq, attachCalls]
    · rw [hout] at hp
      simp [COutcome.isExc] at hp

/-- Helper: the loop trace contains the put call of every policy index. -/
theorem attachCalls_mem (roleName : String) :
    ∀ ps i j, j < List.length ps →
      Call.putRolePolicy roleName (roleName ++ "Policy" ++ toString (i + j + 1)) ∈
        attachCalls roleName i ps := by
  intro ps
  induction ps with
  | nil => intro i j h; simp at h
  | cons p rest ih =>
    intro i j h
    cases j with
    | zero => simp [attachCalls]
    | succ j =>
      have hmem := ih (i + 1) j (by simpa using h)
      have hstep : attachCalls roleName i (p :: rest) =
          Call.putRolePolicy roleName (roleName ++ "Policy" ++ toString (i + 1)) ::
            attachCalls roleName (i + 1) rest := rfl
      rw [hstep, show i + (j + 1) + 1 = i + 1 + j + 1 by omega]
      exact List.mem_cons_of_mem _ hmem

/-- Helper: from a NoSuchEntity existence check onward, with creation
succeeding and no attachment raising a non-ClientError exception, the result
status is success and the trace contains one put call per policy index. -/
theorem checkExisting_creates {σ : Type} (env : RCEnv σ) (inp : RunInput) (msd : Int)
    (si : Json) (al : String) (s : σ) (tr : List Call)
    (hget : ∀ st, ∃ m, (env.getRole inp.role_name st).1 = COutcome.clientError "NoSuchEntity" m)
    (hcreate : ∀ st, ∃ arn, (env.createRole inp.role_name (Json.obj inp.trust_policy)
        msd inp.description st).1 = COutcome.ok arn)
    (hput : ∀ pn p st, ((env.putRolePolicy inp.role_name pn p st).1).isExc = false) :
    (checkExistingThenCreate env inp msd si al s tr).1.get "status" = some (Json.s "success") ∧
    ∀ j, j < List.length inp.permission_policies →
      Call.putRolePolicy inp.role_name (inp.role_name ++ "Policy" ++ toString (j + 1)) ∈
        (checkExistingThenCreate env inp msd si al s tr).2.2 := by
  obtain ⟨m, hm⟩ := hget s
  obtain ⟨arn, harn⟩ := hcreate (env.getRole inp.role_name s).2
  obtain ⟨names, s2, hattach⟩ := attachPolicies_no_exc env inp.role_name hput
    inp.permission_policies 0
    (env.createRole inp.role_name (Json.obj inp.trust_policy) msd inp.description
      (env.getRole inp.role_name s).2).2
    (tr ++ [Call.getRole inp.role_name] ++ [Call.createRole inp.role_name])
  have hres : checkExistingThenCreate env inp msd si al s tr =
      createAndAttach env inp msd si al (env.getRole inp.role_name s).2
        (tr ++ [Call.getRole inp.role_name]) := by
    unfold checkExistingThenCreate
    simp [hm]
  rw [hres]
  unfold createAndAttach
  try dsimp only
  rw [harn]
  try dsimp only
  rw [show tr ++ [Call.getRole inp.role_name] ++ [Call.createRole inp.role_name] =
        (tr ++ [Call.getRole inp.role_name]) ++ [Call.createRole inp.role_name] by simp] at hattach
  rw [hattach]
  constructor
  · simp [Json.get, jlookup]
  · intro j hj
    have hmem := attachCalls_mem inp.role_name inp.permission_policies 0 j hj
    rw [show 0 + j + 1 = j + 1 by omega] at hmem
    simp only [List.mem_append]
    exact Or.inr hmem

/-- C1 (amended): for every valid spec, whenever the provisioner reaches the
creation path (existence check reports NoSuchEntity, creation succeeds, and
each attachment call either succeeds or fails with a ClientError), every
permission statement attachment is attempted — one put call per statement in
the trace — even when earlier attachments fail, and the final status is
"success" in all cases; partial attachment failure never changes the status,
it is visible only through attached_policies and total_policies_attached. -/
theorem c1_attempts_all_attachments {σ : Type} (env : RCEnv σ) (inp : RunInput) (s : σ)
    (hname : inp.role_name ≠ "")
    (htrust : inp.trust_policy ≠ [])
    (hperm : inp.permission_policies ≠ [])
    (hassume : ∀ st, (env.assumeRole st).1 = COutcome.ok ())
    (hget : ∀ st, ∃ m, (env.getRole inp.role_name st).1 = COutcome.clientError "NoSuchEntity" m)
    (hcreate : ∀ st, ∃ arn, (env.createRole inp.role_name (Json.obj inp.trust_policy)
        (clampSessionDuration inp.max_session_duration) inp.description st).1 = COutcome.ok arn)
    (hput : ∀ pn p st, ((env.putRolePolicy inp.role_name pn p st).1).isExc = false) :
    (AWSRoleCreator_run env inp s).1.get "status" = some (Json.s "success") ∧
    ∀ j, j < List.length inp.permission_policies →
      Call.putRolePolicy inp.role_name (inp.role_name ++ "Policy" ++ toString (j + 1)) ∈
        (AWSRoleCreator_run env inp s).2.2 := by
  have htrust' : inp.trust_policy.isEmpty = false := by
    cases htp : inp.trust_policy with
    | nil => exact absurd htp htrust
    | cons a l => rfl
  have hperm' : inp.permission_policies.isEmpty = false := by
    cases hpp : inp.permission_policies with
    | nil => exact absurd hpp hperm
    | cons a l => rfl
  unfold AWSRoleCreator_run
  try dsimp only
  rw [if_neg hname, htrust', hperm']
  simp only [Bool.false_eq_true, if_false]
  rcases hca : pyTruthyStr inp.customer_account_id with _ | acct
  · simp only [hca]
    exact checkExisting_creates env inp _ _ _ s [] hget hcreate hput
  · simp only [hca, hassume s]
    exact checkExisting_creates env inp _ _ _ _ _ hget hcreate hput

/-- Witness for C1 amended: applied to the concrete environment and spec of
the counterexample input shape but with both attachments succeeding is not
needed; the theorem is applied directly to `c1Env` and `c1Input`, whose
hypotheses hold concretely. -/
theorem c1_attempts_all_attachments_witness :
    (AWSRoleCreator_run c1Env c1Input ()).1.get "status" = some (Json.s "success") ∧
    ∀ j, j < List.length c1Input.permission_policies →
      Call.putRolePolicy c1Input.role_name
        (c1Input.role_name ++ "Policy" ++ toString (j + 1)) ∈
        (AWSRoleCreator_run c1Env c1Input ()).2.2 :=
  c1_attempts_all_attachments c1Env c1Input () (by decide)
    (by intro h; simp [c1Input] at h)
    (by intro h; simp [c1Input] at h)
    (fun _ => rfl)
    (fun _ => ⟨"role not found", rfl⟩)
    (fun _ => ⟨"arn:aws:iam::123456789012:role/r", rfl⟩)
    (fun pn p _ => by
      by_cases hpn : pn = "rPolicy1" <;> simp [c1Env, hpn, COutcome.isExc])

/-! ## Idempotence of provisioning (C3)

To state idempotence across two invocations, the remote IAM service is
instantiated with its create-if-absent semantics: the world state records the
existing roles (name to Role object, as `get_role` returns it) and the
attached inline policies; `get_role` finds a stored role or reports
NoSuchEntity, `create_role` stores a new Role object and returns its ARN, and
`put_role_policy` records the policy.  The account id of the model ARNs is a
fixed placeholder. -/

/-- The world state of the model IAM service. -/
structure IAMState where
  roles : List (String × Json)
  inlinePolicies : List (String × String × Json)

/-- The Role object stored and returned by the model IAM service. -/
def mkRoleObj (name : String) (msd : Int) (descr : Option String) : Json :=
  Json.obj ([("Path", Json.s "/"),
             ("RoleName", Json.s name),
             ("Arn", Json.s ("arn:aws:iam::123456789012:role/" ++ name)),
             ("MaxSessionDuration", Json.n msd)] ++
            (match descr with
             | some d => [("Description", Json.s d)]
             | none => []))

/-- The model IAM service with create-if-absent semantics. -/
def iamEnv : RCEnv IAMState where
  assumeRole := fun s => (COutcome.ok (), s)
  getRole := fun name s =>
    match jlookup s.roles name with
    | some r => (COutcome.ok r, s)
    | none => (COutcome.clientError "NoSuchEntity" ("Role " ++ name ++ " not found"), s)
  createRole := fun name _trust msd descr s =>
    (COutcome.ok ("arn:aws:iam::123456789012:role/" ++ name),
     { s with roles := s.roles ++ [(name, mkRoleObj name msd descr)] })
  putRolePolicy := fun rn pn p s =>
    (COutcome.ok (), { s with inlinePolicies := s.inlinePolicies ++ [(rn, pn, p)] })

/-- Helper: looking up a key appended to a list that does not contain it. -/
theorem jlookup_append_right (l : List (String × Json)) (k : String) (v : Json)
    (h : jlookup l k = none) : jlookup (l ++ [(k, v)]) k = some v := by
  induction l with
  | nil => simp [jlookup]
  | cons a rest ih =>
    obtain ⟨k0, v0⟩ := a
    simp only [jlookup] at h
    by_cases hk : k0 = k
    · rw [if_pos hk] at h
      simp at h
    · rw [if_neg hk] at h
      simp only [List.cons_append, jlookup, if_neg hk]
      exact ih h

/-- Reduction of the model assume-role call. -/
theorem iamEnv_assume (s : IAMState) : iamEnv.assumeRole s = (COutcome.ok (), s) := rfl

/-- Reduction of the model get-role call when the role is stored. -/
theorem iamEnv_getRole_found (name : String) (s : IAMState) (r : Json)
    (h : jlookup s.roles name = some r) :
    iamEnv.getRole name s = (COutcome.ok r, s) := by
  show (match jlookup s.roles name with
        | some r => (COutcome.ok r, s)
        | none => (COutcome.clientError "NoSuchEntity" ("Role " ++ name ++ " not found"), s)) =
      (COutcome.ok r, s)
  rw [h]

/-- Reduction of the model get-role call when the role is absent. -/
theorem iamEnv_getRole_missing (name : String) (s : IAMState)
    (h : jlookup s.roles name = none) :
    iamEnv.getRole name s =
      (COutcome.clientError "NoSuchEntity" ("Role " ++ name ++ " not found"), s) := by
  show (match jlookup s.roles name with
        | some r => (COutcome.ok r, s)
        | none => (COutcome.clientError "NoSuchEntity" ("Role " ++ name ++ " not found"), s)) =
      (COutcome.clientError "NoSuchEntity" ("Role " ++ name ++ " not found"), s)
  rw [h]

/-- Reduction of the model create-role call. -/
theorem iamEnv_createRole (name : String) (tp : Json) (msd : Int) (d : Option String)
    (s : IAMState) :
    iamEnv.createRole name tp msd d s =
      (COutcome.ok ("arn:aws:iam::123456789012:role/" ++ name),
       { s with roles := s.roles ++ [(name, mkRoleObj name msd d)] }) := rfl

/-- Reduction of the model put-role-policy call. -/
theorem iamEnv_put (rn pn : String) (p : Json) (s : IAMState) :
    iamEnv.putRolePolicy rn pn p s =
      (COutcome.ok (), { s with inlinePolicies := s.inlinePolicies ++ [(rn, pn, p)] }) := rfl

/-- Helper: the attachment loop against the model IAM service never changes
the set of stored roles. -/
theorem attachPolicies_iam_roles (rn : String) :
    ∀ ps i s tr, ((attachPolicies iamEnv rn ps i s tr).2.1).roles = s.roles := by
  intro ps
  induction ps with
  | nil => intro i s tr; rfl
  | cons p rest ih =>
    intro i s tr
    obtain ⟨names, s2, hattach⟩ := attachPolicies_no_exc iamEnv rn (fun _ _ _ => rfl)
      rest (i + 1)
      { s with inlinePolicies :=
          s.inlinePolicies ++ [(rn, rn ++ "Policy" ++ toString (i + 1), p)] }
      (tr ++ [Call.putRolePolicy rn (rn ++ "Policy" ++ toString (i + 1))])
    have hroles := ih (i + 1)
      { s with inlinePolicies :=
          s.inlinePolicies ++ [(rn, rn ++ "Policy" ++ toString (i + 1), p)] }
      (tr ++ [Call.putRolePolicy rn (rn ++ "Policy" ++ toString (i + 1))])
    rw [hattach] at hroles
    simp only [attachPolicies]
    try dsimp only
    rw [iamEnv_put]
    try dsimp only
    rw [hattach]
    exact hroles

/-- Helper: after a run from a state in which the role does not exist, the
role is stored under its name with the clamped session duration and the
given description. -/
theorem run_state_after_create (inp : RunInput) (s0 : IAMState)
    (hname : inp.role_name ≠ "")
    (htrust : inp.trust_policy ≠ [])
    (hperm : inp.permission_policies ≠ [])
    (hfresh : jlookup s0.roles inp.role_name = none) :
    jlookup ((AWSRoleCreator_run iamEnv inp s0).2.1).roles inp.role_name =
      some (mkRoleObj inp.role_name (clampSessionDuration inp.max_session_duration)
        inp.description) := by
  have htrust' : inp.trust_policy.isEmpty = false := by
    cases htp : inp.trust_policy with
    | nil => exact absurd htp htrust
    | cons a l => rfl
  have hperm' : inp.permission_policies.isEmpty = false := by
    cases hpp : inp.permission_policies with
    | nil => exact absurd hpp hperm
    | cons a l => rfl
  have hcheck : ∀ si al tr,
      jlookup ((checkExistingThenCreate iamEnv inp
          (clampSessionDuration inp.max_session_duration) si al s0 tr).2.1).roles
          inp.role_name =
        some (mkRoleObj inp.role_name (clampSessionDuration inp.max_session_duration)
          inp.description) := by
    intro si al tr
    have hcc : checkExistingThenCreate iamEnv inp
        (clampSessionDuration inp.max_session_duration) si al s0 tr =
        createAndAttach iamEnv inp (clampSessionDuration inp.max_session_duration) si al s0
          (tr ++ [Call.getRole inp.role_name]) := by
      unfold checkExistingThenCreate
      try dsimp only
      rw [iamEnv_getRole_missing inp.role_name s0 hfresh]
      try dsimp only
      rw [if_pos rfl]
    rw [hcc]
    obtain ⟨names, s2, hattach⟩ := attachPolicies_no_exc iamEnv inp.role_name
      (fun _ _ _ => rfl) inp.permission_policies 0
      { s0 with roles := s0.roles ++ [(inp.role_name,
          mkRoleObj inp.role_name (clampSessionDuration inp.max_session_duration)
            inp.description)] }
      ((tr ++ [Call.getRole inp.role_name]) ++ [Call.createRole inp.role_name])
    have hroles := attachPolicies_iam_roles inp.role_name inp.permission_policies 0
      { s0 with roles := s0.roles ++ [(inp.role_name,
          mkRoleObj inp.role_name (clampSessionDuration inp.max_session_duration)
            inp.description)] }
      ((tr ++ [Call.getRole inp.role_name]) ++ [Call.createRole inp.role_name])
    rw [hattach] at hroles
    unfold createAndAttach
    try dsimp only
    rw [iamEnv_createRole]
    try dsimp only
    rw [hattach]
    try dsimp only
    rw [hroles]
    exact jlookup_append_right s0.roles inp.role_name _ hfresh
  unfold AWSRoleCreator_run
  try dsimp only
  rw [if_neg hname, htrust', hperm']
  simp only [Bool.false_eq_true, if_false]
  rcases hca : pyTruthyStr inp.customer_account_id with _ | acct
  · simp only [hca]
    exact hcheck _ _ []
  · simp only [hca, iamEnv_assume]
    exact hcheck _ _ [Call.assumeRole]

/-- Helper: a run from a state in which the role is stored returns the
already_exists result carrying the stored object and its ARN, leaves the
state unchanged, and makes no mutating call. -/
theorem run_role_found (inp : RunInput) (s : IAMState) (r : Json) (arnv : Json)
    (hname : inp.role_name ≠ "")
    (htrust : inp.trust_policy ≠ [])
    (hperm : inp.permission_policies ≠ [])
    (hfound : jlookup s.roles inp.role_name = some r)
    (harn : r.get "Arn" = some arnv) :
    ∃ si al tr, AWSRoleCreator_run iamEnv inp s =
      (Json.obj [("status", Json.s "already_exists"),
                 ("role_name", Json.s inp.role_name),
                 ("role_arn", arnv),
                 ("role_details", r),
                 ("cross_account_info", si),
                 ("message", Json.s ("Role " ++ inp.role_name ++
                   " already exists in account " ++ al))], s, tr) ∧
      ∀ c ∈ tr, c.isMutating = false := by
  have htrust' : inp.trust_policy.isEmpty = false := by
    cases htp : inp.trust_policy with
    | nil => exact absurd htp htrust
    | cons a l => rfl
  have hperm' : inp.permission_policies.isEmpty = false := by
    cases hpp : inp.permission_policies with
    | nil => exact absurd hpp hperm
    | cons a l => rfl
  have hcheck : ∀ si al tr, checkExistingThenCreate iamEnv inp
      (clampSessionDuration inp.max_session_duration) si al s tr =
      (Json.obj [("status", Json.s "already_exists"),
                 ("role_name", Json.s inp.role_name),
                 ("role_arn", arnv),
                 ("role_details", r),
                 ("cross_account_info", si),
                 ("message", Json.s ("Role " ++ inp.role_name ++
                   " already exists in account " ++ al))], s,
       tr ++ [Call.getRole inp.role_name]) := by
    intro si al tr
    unfold checkExistingThenCreate
    try dsimp only
    rw [iamEnv_getRole_found inp.role_name s r hfound]
    try dsimp only
    rw [harn]
  unfold AWSRoleCreator_run
  try dsimp only
  rw [if_neg hname, htrust', hperm']
  simp only [Bool.false_eq_true, if_false]
  rcases hca : pyTruthyStr inp.customer_account_id with _ | acct
  · simp only [hca]
    refine ⟨Json.obj [("cross_account", Json.b false)], "local",
      [Call.getRole inp.role_name], ?_, ?_⟩
    · exact hcheck _ _ []
    · intro c hc
      simp at hc
      subst hc
      rfl
  · simp only [hca, iamEnv_assume]
    refine ⟨Json.obj [("cross_account", Json.b true),
        ("customer_account_id", Json.s acct),
        ("assumed_role", Json.s ("arn:aws:iam::" ++ acct ++ ":role/" ++
          inp.cross_account_role_name)),
        ("role_assumption_success", Json.b true)], acct,
      [Call.assumeRole] ++ [Call.getRole inp.role_name], ?_, ?_⟩
    · exact hcheck _ _ [Call.assumeRole]
    · intro c hc
      simp at hc
      rcases hc with hc | hc <;> subst hc <;> rfl

/-- C3: against the create-if-absent IAM semantics, re-invoking `_run` with
an identical valid spec after a first invocation that created the role yields
already_exists on the second call, carrying the existing role ARN and stored
attributes, leaves the world state unchanged, and the second call performs no
mutating call (no role creation and no policy attachment) — the existence
check short-circuits creation. -/
theorem c3_provision_idempotent (inp : RunInput) (s0 : IAMState)
    (hname : inp.role_name ≠ "")
    (htrust : inp.trust_policy ≠ [])
    (hperm : inp.permission_policies ≠ [])
    (hfresh : jlookup s0.roles inp.role_name = none) :
    (AWSRoleCreator_run iamEnv inp (AWSRoleCreator_run iamEnv inp s0).2.1).1.get "status" =
        some (Json.s "already_exists") ∧
    (AWSRoleCreator_run iamEnv inp (AWSRoleCreator_run iamEnv inp s0).2.1).1.get "role_arn" =
        some (Json.s ("arn:aws:iam::123456789012:role/" ++ inp.role_name)) ∧
    (AWSRoleCreator_run iamEnv inp (AWSRoleCreator_run iamEnv inp s0).2.1).1.get "role_details" =
        some (mkRoleObj inp.role_name (clampSessionDuration inp.max_session_duration)
          inp.description) ∧
    (∀ c ∈ (AWSRoleCreator_run iamEnv inp (AWSRoleCreator_run iamEnv inp s0).2.1).2.2,
        c.isMutating = false) ∧
    (AWSRoleCreator_run iamEnv inp (AWSRoleCreator_run iamEnv inp s0).2.1).2.1 =
        (AWSRoleCreator_run iamEnv inp s0).2.1 := by
  have h1 := run_state_after_create inp s0 hname htrust hperm hfresh
  have harn : (mkRoleObj inp.role_name (clampSessionDuration inp.max_session_duration)
      inp.description).get "Arn" =
      some (Json.s ("arn:aws:iam::123456789012:role/" ++ inp.role_name)) := by
    simp [mkRoleObj, Json.get, jlookup]
  obtain ⟨si, al, tr, heq, htr⟩ := run_role_found inp ((AWSRoleCreator_run iamEnv inp s0).2.1)
    _ _ hname htrust hperm h1 harn
  refine ⟨?_, ?_, ?_, ?_, ?_⟩
  · rw [heq]; simp [Json.get, jlookup]
  · rw [heq]; simp [Json.get, jlookup]
  · rw [heq]; simp [Json.get, jlookup]
  · rw [heq]; exact htr
  · rw [heq]

/-- A valid spec for the idempotence witness. -/
def c3Input : RunInput :=
  { role_name := "r3",
    trust_policy := [("Version", Json.s "2012-10-17")],
    permission_policies := [Json.obj [("Effect", Json.s "Allow")]] }

/-- The empty IAM world. -/
def c3State0 : IAMState := { roles := [], inlinePolicies := [] }

/-- Witness for C3 at a concrete spec and the empty initial world. -/
theorem c3_provision_idempotent_witness :
    (AWSRoleCreator_run iamEnv c3Input (AWSRoleCreator_run iamEnv c3Input c3State0).2.1).1.get
        "status" = some (Json.s "already_exists") ∧
    (AWSRoleCreator_run iamEnv c3Input (AWSRoleCreator_run iamEnv c3Input c3State0).2.1).1.get
        "role_arn" = some (Json.s ("arn:aws:iam::123456789012:role/" ++ c3Input.role_name)) ∧
    (AWSRoleCreator_run iamEnv c3Input (AWSRoleCreator_run iamEnv c3Input c3State0).2.1).1.get
        "role_details" = some (mkRoleObj c3Input.role_name
          (clampSessionDuration c3Input.max_session_duration) c3Input.description) ∧
    (∀ c ∈ (AWSRoleCreator_run iamEnv c3Input
        (AWSRoleCreator_run iamEnv c3Input c3State0).2.1).2.2, c.isMutating = false) ∧
    (AWSRoleCreator_run iamEnv c3Input (AWSRoleCreator_run iamEnv c3Input c3State0).2.1).2.1 =
        (AWSRoleCreator_run iamEnv c3Input c3State0).2.1 :=
  c3_provision_idempotent c3Input c3State0 (by decide)
    (by intro h; simp [c3Input] at h)
    (by intro h; simp [c3Input] at h)
    rfl

/-! ## Evidence Collector: `CloudTrailEventsFetcher` (role_fetcher.py)

The CloudTrail lookup paginator for one principal is modeled as the list of
steps the iteration produces: pages of raw events, or a ClientError raised at
some point of the pagination.  The raw AWS event is a structure of the fields
`_get_cloudtrail_events_for_user` reads; the nested CloudTrailEvent JSON
string is modeled as absent, unparseable, or a parsed dict. -/

/-- A raw event as the CloudTrail lookup API returns it. -/
structure RawEvent where
  eventId : Option String := none
  eventName : Option String := none
  eventTime : Option String := none
  eventSource : Option String := none
  username : Option String := none
  sourceIPAddress : Option String := none
  userAgent : Option String := none
  awsRegion : Option String := none
  readOnly : Option Bool := none
  resources : List Json := []
  cloudTrailEvent : Option (Option (List (String × Json))) := none

/-- The flat per-event record built at lines 138-184 of role_fetcher.py. -/
structure EventData where
  event_id : Option String
  event_name : Option String
  event_time : Option String
  event_source : Option String
  username : Option String
  source_ip_address : Option String
  user_agent : Option String
  aws_region : Option String
  read_only : Option Bool
  resources : List Json
  event_version : Option Json
  user_identity : Option Json
  request_parameters : Option Json
  response_elements : Option Json
  additional_event_data : Option Json
  request_id : Option Json
  event_type : Option Json
  management_event : Option Json
  recipient_account_id : Option Json
  event_category : Option Json
  tls_details : Option Json

/-- Normalization of one raw event (lines 138-184): the flat fields are
copied, and the parsed CloudTrailEvent dict, when present and parseable, is
merged; a parse failure is tolerated and leaves the extra fields empty. -/
def convertEvent (e : RawEvent) : EventData :=
  let base : EventData :=
    { event_id := e.eventId, event_name := e.eventName, event_time := e.eventTime,
      event_source := e.eventSource, username := e.username,
      source_ip_address := e.sourceIPAddress, user_agent := e.userAgent,
      aws_region := e.awsRegion, read_only := e.readOnly, resources := e.resources,
      event_version := none, user_identity := none, request_parameters := none,
      response_elements := none, additional_event_data := none, request_id := none,
      event_type := none, management_event := none, recipient_account_id := none,
      event_category := none, tls_details := none }
  match e.cloudTrailEvent with
  | some (some ct) =>
    { base with
      event_version := jlookup ct "eventVersion",
      user_identity := jlookup ct "userIdentity",
      request_parameters := jlookup ct "requestParameters",
      response_elements := jlookup ct "responseElements",
      additional_event_data := jlookup ct "additionalEventData",
      request_id := jlookup ct "requestID",
      event_type := jlookup ct "eventType",
      management_event := jlookup ct "managementEvent",
      recipient_account_id := jlookup ct "recipientAccountId",
      event_category := jlookup ct "eventCategory",
      tls_details := jlookup ct "tlsDetails" }
  | _ => base

/-- One step of the pagination: a page of events, or a ClientError raised by
the paginator at that point of the iteration. -/
inductive PageStep where
  | page (events : List RawEvent)
  | apiError (msg : String)

/-- The return value of `_get_cloudtrail_events_for_user`. -/
structure FetchResult where
  events : List EventData
  error : Option String

/-- The inner per-event loop of one page (lines 130-184): events are
converted and appended until the accumulated count reaches the cap; the check
happens before each append. -/
def addFromPage (maxEvents : Nat) : List EventData → List RawEvent → List EventData
  | acc, [] => acc
  | acc, e :: rest =>
    if maxEvents ≤ acc.length then acc
    else addFromPage maxEvents (acc ++ [convertEvent e]) rest

/-- The page loop of `_get_cloudtrail_events_for_user` (lines 120-193): each
page is folded in; the loop stops when the cap is reached; a ClientError at
any point discards the accumulated events and yields an error result. -/
def userFetchLoop (username : String) (maxEvents : Nat) :
    List EventData → List PageStep → FetchResult
  | acc, [] => { events := acc, error := none }
  | _acc, PageStep.apiError m :: _ =>
    { events := [],
      error := some ("Error getting CloudTrail events for user " ++ username ++ ": " ++ m) }
  | acc, PageStep.page evs :: rest =>
    let acc1 := addFromPage maxEvents acc evs
    if maxEvents ≤ acc1.length then { events := acc1, error := none }
    else userFetchLoop username maxEvents acc1 rest

/-- `_get_cloudtrail_events_for_user(username, start, end, max_events)`: the
source default for the cap is 20; the parallel fan-out passes 50. -/
def get_cloudtrail_events_for_user (username : String) (maxEvents : Nat)
    (steps : List PageStep) : FetchResult :=
  userFetchLoop username maxEvents [] steps

/-- What one fan-out task delivers for its principal: the fetch result, or an
exception raised out of `future.result()`. -/
inductive FetchOutcome where
  | completed (res : FetchResult)
  | raised (msg : String)

/-- The per-principal record built at lines 221-250 of role_fetcher.py. -/
structure UserRecord where
  username : String
  events : List EventData
  error : Option String
  has_activity : Bool
  should_skip_role_creation : Bool
  skip_reason : Option String

/-- Building one per-principal record (lines 221-250): a truthy error field
or a raised exception yields an empty, skip-marked record; otherwise the
activity flags are derived from whether any event was fetched. -/
def mkUserRecord (username : String) (o : FetchOutcome) : UserRecord :=
  match o with
  | .raised m =>
    { username := username, events := [], error := some m, has_activity := false,
      should_skip_role_creation := true,
      skip_reason := some ("Exception occurred: " ++ m) }
  | .completed res =>
    match pyTruthyStr res.error with
    | some m =>
      { username := username, events := [], error := some m, has_activity := false,
        should_skip_role_creation := true,
        skip_reason := some "Error fetching CloudTrail events" }
    | none =>
      { username := username, events := res.events, error := none,
        has_activity := decide (0 < res.events.length),
        should_skip_role_creation := !(decide (0 < res.events.length)),
        skip_reason := if 0 < res.events.length then none
          else some "No CloudTrail events found - cannot determine required permissions" }

/-- The entry appended to `errors` for one principal, when any (lines 222 and
242): the truthy fetch error message, or the formatted exception message. -/
def errorEntry (username : String) (o : FetchOutcome) : Option String :=
  match o with
  | .raised m => some ("Exception for user " ++ username ++ ": " ++ m)
  | .completed res => pyTruthyStr res.error

/-- The `as_completed` aggregation loop of `_fetch_all_events_parallel`
(lines 214-252), processing per-principal outcomes in completion order
(`order` is a permutation of the principal indices): one record per
completed task, error entries collected, event totals summed. -/
def fanOutLoop (usernames : List String) (outcome : Nat → FetchOutcome) :
    List Nat → List UserRecord × List String × Nat
  | [] => ([], [], 0)
  | i :: rest =>
    let username := usernames.getD i ""
    let r := mkUserRecord username (outcome i)
    let out := fanOutLoop usernames outcome rest
    (r :: out.1,
     (match errorEntry username (outcome i) with
      | some m => m :: out.2.1
      | none => out.2.1),
     out.2.2 + r.events.length)

/-- `_fetch_all_events_parallel(iam_users, ...)`: fans out one fetch per
principal and aggregates records, errors, and the event total in completion
order. -/
def fetch_all_events_parallel (usernames : List String) (outcome : Nat → FetchOutcome)
    (order : List Nat) : List UserRecord × List String × Nat :=
  fanOutLoop usernames outcome order

/-- Outcome of one `iam_client.delete_user` call: success, a caught
ClientError, or any other raised exception (not caught by the loop). -/
inductive DeleteOutcome where
  | ok
  | clientError (msg : String)
  | raised (msg : String)

/-- One entry of the cleanup results list (lines 264-290). -/
structure CleanupEntry where
  username : String
  status : String
  reason : Option String := none
  error : Option String := none

/-- The default protected list of `_delete_iam_users` (line 257). -/
def protectedDefault : List String :=
  ["DeploymentUser", "Hackathon", "pro_user", "pro_max_user"]

/-- The deletion loop of `_delete_iam_users` (lines 264-290): protected users
are skipped before any call; a ClientError is recorded and the loop
continues; any other exception propagates, losing the collected entries.
The second component is the list of usernames actually passed to
delete_user, in order. -/
def deleteLoop (deleteApi : String → DeleteOutcome) (protectedUsers : List String) :
    List String → Except String (List CleanupEntry) × List String
  | [] => (Except.ok [], [])
  | u :: rest =>
    if u ∈ protectedUsers then
      match deleteLoop deleteApi protectedUsers rest with
      | (Except.ok entries, calls) =>
        (Except.ok ({ username := u, status := "skipped",
                      reason := some "User is in protected list" } :: entries), calls)
      | other => other
    else
      match deleteApi u with
      | .ok =>
        match deleteLoop deleteApi protectedUsers rest with
        | (Except.ok entries, calls) =>
          (Except.ok ({ username := u, status := "deleted" } :: entries), u :: calls)
        | (e, calls) => (e, u :: calls)
      | .clientError m =>
        match deleteLoop deleteApi protectedUsers rest with
        | (Except.ok entries, calls) =>
          (Except.ok ({ username := u, status := "error", error := some m } :: entries),
           u :: calls)
        | (e, calls) => (e, u :: calls)
      | .raised m => (Except.error m, [u])

/-- `_delete_iam_users(usernames, session, protected_users)`: a None
protected list falls back to the default. -/
def delete_iam_users (deleteApi : String → DeleteOutcome) (usernames : List String)
    (protectedUsers : Option (List String)) :
    Except String (List CleanupEntry) × List String :=
  deleteLoop deleteApi (protectedUsers.getD protectedDefault) usernames

/-- Helper: the per-page loop never pushes the accumulator past the cap. -/
theorem addFromPage_le (maxE : Nat) :
    ∀ evs acc, List.length acc ≤ maxE → (addFromPage maxE acc evs).length ≤ maxE := by
  intro evs
  induction evs with
  | nil => intro acc h; exact h
  | cons e rest ih =>
    intro acc h
    by_cases hle : maxE ≤ acc.length
    · simpa [addFromPage, hle] using h
    · simp only [addFromPage, if_neg hle]
      exact ih (acc ++ [convertEvent e]) (by simp; omega)

/-- Helper: the page loop never returns more events than the cap. -/
theorem userFetchLoop_le (username : String) (maxE : Nat) :
    ∀ steps acc, List.length acc ≤ maxE →
      (userFetchLoop username maxE acc steps).events.length ≤ maxE := by
  intro steps
  induction steps with
  | nil => intro acc h; exact h
  | cons st rest ih =>
    intro acc h
    cases st with
    | apiError m => simp [userFetchLoop]
    | page evs =>
      have h1 := addFromPage_le maxE evs acc h
      by_cases hle : maxE ≤ (addFromPage maxE acc evs).length
      · simpa [userFetchLoop, hle] using h1
      · simpa [userFetchLoop, hle] using ih (addFromPage maxE acc evs) h1

/-- C8: for every principal, every pagination sequence, and every cap, the
per-principal fetch stops accumulating at the cap: the returned event list
never holds more than `maxEvents` events. -/
theorem c8_per_principal_cap (username : String) (maxEvents : Nat) (steps : List PageStep) :
    (get_cloudtrail_events_for_user username maxEvents steps).events.length ≤ maxEvents :=
  userFetchLoop_le username maxEvents steps [] (Nat.zero_le _)

/-- Whether the fan-out outcome for a principal is a failure: an exception,
or a fetch result with a truthy error field. -/
def fetchFailed : FetchOutcome → Bool
  | .raised _ => true
  | .completed res => (pyTruthyStr res.error).isSome

/-- The events a fan-out outcome fetched. -/
def eventsOfOutcome : FetchOutcome → List EventData
  | .raised _ => []
  | .completed res => res.events

/-- C6: a principal is marked ineligible for role creation — skip flag true,
activity flag false — exactly when its final record holds zero events, which
happens exactly when its fetch failed or fetched zero events; a principal
with at least one fetched event is marked eligible. -/
theorem c6_skip_flag (username : String) (o : FetchOutcome) :
    (mkUserRecord username o).should_skip_role_creation =
      (mkUserRecord username o).events.isEmpty ∧
    (mkUserRecord username o).has_activity =
      !(mkUserRecord username o).should_skip_role_creation ∧
    (mkUserRecord username o).events.isEmpty =
      (fetchFailed o || (eventsOfOutcome o).isEmpty) := by
  cases o with
  | raised m => exact ⟨rfl, rfl, rfl⟩
  | completed res =>
    cases hpt : pyTruthyStr res.error with
    | some m =>
      simp [mkUserRecord, hpt, fetchFailed, eventsOfOutcome]
    | none =>
      cases hres : res.events with
      | nil => simp [mkUserRecord, hpt, fetchFailed, eventsOfOutcome, hres]
      | cons a l => simp [mkUserRecord, hpt, fetchFailed, eventsOfOutcome, hres]

/-- Helper: the aggregation loop yields exactly one record per processed
index, in completion order. -/
theorem fanOutLoop_records (usernames : List String) (outcome : Nat → FetchOutcome) :
    ∀ order, (fanOutLoop usernames outcome order).1 =
      order.map (fun i => mkUserRecord (usernames.getD i "") (outcome i)) := by
  intro order
  induction order with
  | nil => rfl
  | cons i rest ih => simp [fanOutLoop, ih]

/-- Helper: the aggregation loop collects exactly the error entries of the
processed indices, in completion order. -/
theorem fanOutLoop_errors (usernames : List String) (outcome : Nat → FetchOutcome) :
    ∀ order, (fanOutLoop usernames outcome order).2.1 =
      order.filterMap (fun i => errorEntry (usernames.getD i "") (outcome i)) := by
  intro order
  induction order with
  | nil => rfl
  | cons i rest ih =>
    simp only [fanOutLoop, List.filterMap_cons]
    cases he : errorEntry (usernames.getD i "") (outcome i) with
    | none => simp only [he, ih]
    | some m => simp only [he, ih]

/-- Helper: a principal whose outcome produced an error entry gets an empty
record. -/
theorem errorEntry_events_empty (u : String) (o : FetchOutcome) (m : String)
    (h : errorEntry u o = some m) : (mkUserRecord u o).events = [] := by
  cases o with
  | raised msg => rfl
  | completed res =>
    have h' : pyTruthyStr res.error = some m := h
    simp [mkUserRecord, h']

/-- C7: for every set of N principals and every completion order of the
fan-out tasks, the aggregation produces exactly one record per principal — N
records in total, with the record of every principal index present — and a
failing principal contributes its error message to the errors list and an
empty record, without affecting the other principals. -/
theorem c7_fanout_isolation (usernames : List String) (outcome : Nat → FetchOutcome)
    (order : List Nat) (hperm : order.Perm (List.range usernames.length)) :
    (fetch_all_events_parallel usernames outcome order).1.length = usernames.length ∧
    (∀ i, i < usernames.length →
      mkUserRecord (usernames.getD i "") (outcome i) ∈
        (fetch_all_events_parallel usernames outcome order).1) ∧
    (∀ i, i < usernames.length → ∀ m,
      errorEntry (usernames.getD i "") (outcome i) = some m →
        m ∈ (fetch_all_events_parallel usernames outcome order).2.1 ∧
        (mkUserRecord (usernames.getD i "") (outcome i)).events = []) := by
  have hrec := fanOutLoop_records usernames outcome order
  have herr := fanOutLoop_errors usernames outcome order
  refine ⟨?_, ?_, ?_⟩
  · show (fanOutLoop usernames outcome order).1.length = usernames.length
    rw [hrec, List.length_map, hperm.length_eq, List.length_range]
  · intro i hi
    show _ ∈ (fanOutLoop usernames outcome order).1
    rw [hrec]
    exact List.mem_map_of_mem _ (hperm.mem_iff.mpr (List.mem_range.mpr hi))
  · intro i hi m hm
    refine ⟨?_, errorEntry_events_empty _ _ _ hm⟩
    show m ∈ (fanOutLoop usernames outcome order).2.1
    rw [herr]
    exact List.mem_filterMap.mpr ⟨i, hperm.mem_iff.mpr (List.mem_range.mpr hi), hm⟩

/-- Two principals whose first fetch fails and second succeeds empty. -/
def c7Users : List String := ["alice", "bob"]

/-- Outcomes: alice fails with a fetch error, bob succeeds with no events. -/
def c7Outcome : Nat → FetchOutcome := fun i =>
  if i = 0 then
    FetchOutcome.completed
      { events := [], error := some "Error getting CloudTrail events for user alice: boom" }
  else FetchOutcome.completed { events := [], error := none }

/-- A completion order with bob finishing first. -/
def c7Order : List Nat := [1, 0]

/-- Witness for C7 at two principals, one failing, completing out of order. -/
theorem c7_fanout_isolation_witness :
    (fetch_all_events_parallel c7Users c7Outcome c7Order).1.length = c7Users.length ∧
    mkUserRecord (c7Users.getD 0 "") (c7Outcome 0) ∈
      (fetch_all_events_parallel c7Users c7Outcome c7Order).1 ∧
    ("Error getting CloudTrail events for user alice: boom" ∈
      (fetch_all_events_parallel c7Users c7Outcome c7Order).2.1 ∧
     (mkUserRecord (c7Users.getD 0 "") (c7Outcome 0)).events = []) :=
  ⟨(c7_fanout_isolation c7Users c7Outcome c7Order (by decide)).1,
   (c7_fanout_isolation c7Users c7Outcome c7Order (by decide)).2.1 0 (by decide),
   (c7_fanout_isolation c7Users c7Outcome c7Order (by decide)).2.2 0 (by decide) _ rfl⟩

/-- Helper: no username passed to delete_user is protected. -/
theorem deleteLoop_calls_unprotected (deleteApi : String → DeleteOutcome)
    (plist : List String) :
    ∀ usernames, ∀ u ∈ (deleteLoop deleteApi plist usernames).2, u ∉ plist := by
  intro usernames
  induction usernames with
  | nil => intro u hu; simp [deleteLoop] at hu
  | cons v rest ih =>
    intro u hu
    by_cases hv : v ∈ plist
    · rcases hrec : deleteLoop deleteApi plist rest with ⟨e, calls⟩
      cases e with
      | ok entries =>
        rw [show (deleteLoop deleteApi plist (v :: rest)).2 = calls by
          simp [deleteLoop, hv, hrec]] at hu
        exact ih u (by rw [hrec]; exact hu)
      | error m =>
        rw [show (deleteLoop deleteApi plist (v :: rest)).2 = calls by
          simp [deleteLoop, hv, hrec]] at hu
        exact ih u (by rw [hrec]; exact hu)
    · cases hd : deleteApi v with
      | ok =>
        rcases hrec : deleteLoop deleteApi plist rest with ⟨e, calls⟩
        have hu' : u ∈ v :: calls := by
          cases e with
          | ok entries =>
            rw [show (deleteLoop deleteApi plist (v :: rest)).2 = v :: calls by
              simp [deleteLoop, hv, hd, hrec]] at hu
            exact hu
          | error m =>
            rw [show (deleteLoop deleteApi plist (v :: rest)).2 = v :: calls by
              simp [deleteLoop, hv, hd, hrec]] at hu
            exact hu
        rcases List.mem_cons.mp hu' with h | h
        · rw [h]; exact hv
        · exact ih u (by rw [hrec]; exact h)
      | clientError m =>
        rcases hrec : deleteLoop deleteApi plist rest with ⟨e, calls⟩
        have hu' : u ∈ v :: calls := by
          cases e with
          | ok entries =>
            rw [show (deleteLoop deleteApi plist (v :: rest)).2 = v :: calls by
              simp [deleteLoop, hv, hd, hrec]] at hu
            exact hu
          | error m2 =>
            rw [show (deleteLoop deleteApi plist (v :: rest)).2 = v :: calls by
              simp [deleteLoop, hv, hd, hrec]] at hu
            exact hu
        rcases List.mem_cons.mp hu' with h | h
        · rw [h]; exact hv
        · exact ih u (by rw [hrec]; exact h)
      | raised m =>
        rw [show (deleteLoop deleteApi plist (v :: rest)).2 = [v] by
          simp [deleteLoop, hv, hd]] at hu
        rcases List.mem_cons.mp hu with h | h
        · rw [h]; exact hv
        · simp at h

/-- Helper: when the loop completes normally, every protected username of the
input list is reported as skipped. -/
theorem deleteLoop_skips_protected (deleteApi : String → DeleteOutcome)
    (plist : List String) :
    ∀ usernames entries, (deleteLoop deleteApi plist usernames).1 = Except.ok entries →
      ∀ u ∈ usernames, u ∈ plist →
        ({ username := u, status := "skipped",
           reason := some "User is in protected list", error := none } : CleanupEntry) ∈
          entries := by
  intro usernames
  induction usernames with
  | nil => intro entries _ u hu; simp at hu
  | cons v rest ih =>
    intro entries h u hu hup
    rcases hrec : deleteLoop deleteApi plist rest with ⟨e, calls⟩
    by_cases hv : v ∈ plist
    · cases e with
      | ok entries2 =>
        have heq : (deleteLoop deleteApi plist (v :: rest)).1 =
            Except.ok (({ username := v, status := "skipped", reason := some "User is in protected list", error := none } : CleanupEntry) :: entries2) := by
          simp [deleteLoop, hv, hrec]
        rw [heq] at h
        cases h
        rcases List.mem_cons.mp hu with h0 | h0
        · subst h0
          exact List.mem_cons_self _ _
        · exact List.mem_cons_of_mem _ (ih entries2 (by rw [hrec]) u h0 hup)
      | error m =>
        have heq : (deleteLoop deleteApi plist (v :: rest)).1 = Except.error m := by
          simp [deleteLoop, hv, hrec]
        rw [heq] at h
        cases h
    · rcases List.mem_cons.mp hu with h0 | h0
      · subst h0
        exact absurd hup hv
      · cases hd : deleteApi v with
        | ok =>
          cases e with
          | ok entries2 =>
            have heq : (deleteLoop deleteApi plist (v :: rest)).1 =
                Except.ok (({ username := v, status := "deleted", reason := none, error := none } : CleanupEntry) :: entries2) := by
              simp [deleteLoop, hv, hd, hrec]
            rw [heq] at h
            cases h
            exact List.mem_cons_of_mem _ (ih entries2 (by rw [hrec]) u h0 hup)
          | error m =>
            have heq : (deleteLoop deleteApi plist (v :: rest)).1 = Except.error m := by
              simp [deleteLoop, hv, hd, hrec]
            rw [heq] at h
            cases h
        | clientError m =>
          cases e with
          | ok entries2 =>
            have heq : (deleteLoop deleteApi plist (v :: rest)).1 =
                Except.ok (({ username := v, status := "error", reason := none, error := some m } : CleanupEntry) :: entries2) := by
              simp [deleteLoop, hv, hd, hrec]
            rw [heq] at h
            cases h
            exact List.mem_cons_of_mem _ (ih entries2 (by rw [hrec]) u h0 hup)
          | error m2 =>
            have heq : (deleteLoop deleteApi plist (v :: rest)).1 = Except.error m2 := by
              simp [deleteLoop, hv, hd, hrec]
            rw [heq] at h
            cases h
        | raised m =>
          have heq : (deleteLoop deleteApi plist (v :: rest)).1 = Except.error m := by
            simp [deleteLoop, hv, hd]
          rw [heq] at h
          cases h

/-- C4: the destructive user-cleanup step never passes a protected username
to delete_user — for every delete call in the trace its username is outside
the effective protected list — and, whenever the loop completes normally,
every protected username of the input list is reported as skipped. -/
theorem c4_protected_never_deleted (deleteApi : String → DeleteOutcome)
    (usernames : List String) (protectedUsers : Option (List String)) :
    (∀ u ∈ (delete_iam_users deleteApi usernames protectedUsers).2,
        u ∉ protectedUsers.getD protectedDefault) ∧
    (∀ entries, (delete_iam_users deleteApi usernames protectedUsers).1 = Except.ok entries →
      ∀ u ∈ usernames, u ∈ protectedUsers.getD protectedDefault →
        ({ username := u, status := "skipped",
           reason := some "User is in protected list", error := none } : CleanupEntry) ∈
          entries) :=
  ⟨deleteLoop_calls_unprotected deleteApi (protectedUsers.getD protectedDefault) usernames,
   deleteLoop_skips_protected deleteApi (protectedUsers.getD protectedDefault) usernames⟩

/-- A delete API that always succeeds. -/
def c4Api : String → DeleteOutcome := fun _ => DeleteOutcome.ok

/-- A user list containing one default-protected user. -/
def c4Users : List String := ["DeploymentUser", "temp1"]

/-- The entries the cleanup produces for `c4Users` with the default
protected list. -/
def c4Entries : List CleanupEntry :=
  [{ username := "DeploymentUser", status := "skipped",
     reason := some "User is in protected list", error := none },
   { username := "temp1", status := "deleted", reason := none, error := none }]

/-- Witness for C4: with the default protected list, DeploymentUser is never
passed to delete_user and is reported as skipped. -/
theorem c4_protected_never_deleted_witness :
    (∀ u ∈ (delete_iam_users c4Api c4Users none).2,
      u ∉ (none : Option (List String)).getD protectedDefault) ∧
    ({ username := "DeploymentUser", status := "skipped",
       reason := some "User is in protected list", error := none } : CleanupEntry) ∈
      c4Entries :=
  ⟨(c4_protected_never_deleted c4Api c4Users none).1,
   (c4_protected_never_deleted c4Api c4Users none).2 c4Entries rfl
     "DeploymentUser" (by decide) (by decide)⟩

/-! ## Permission Synthesizer: `create_least_privilege_role_from_events`
(custom_role_creator.py lines 315-392)

Python set accumulation is modeled by insertion-ordered duplicate-free
lists (`setAdd`); str.replace by `pyReplace` (all non-overlapping
occurrences, left to right). -/

/-- The core of Python str.replace for a non-empty pattern `p0 :: prest`:
replaces every non-overlapping occurrence, left to right.  The fuel starts at
the input length, which the recursion never exceeds. -/
def listReplaceAux (p0 : Char) (prest repl : List Char) : Nat → List Char → List Char
  | _, [] => []
  | 0, l => l
  | fuel + 1, c :: rest =>
    if c = p0 ∧ rest.take prest.length = prest then
      repl ++ listReplaceAux p0 prest repl fuel (rest.drop prest.length)
    else c :: listReplaceAux p0 prest repl fuel rest

/-- Python str.replace(pat, repl): every occurrence replaced; an empty
pattern is never used by the tool. -/
def pyReplace (s pat repl : String) : String :=
  match pat.data with
  | [] => s
  | p0 :: prest => String.mk (listReplaceAux p0 prest repl.data s.data.length s.data)

/-- Python set.add on the insertion-ordered duplicate-free list model. -/
def setAdd (l : List String) (x : String) : List String :=
  if x ∈ l then l else l ++ [x]

/-- One event of the `cloudtrail_events` input: the fields the synthesizer
reads — event_name, event_source, and the ResourceName of each attached
resource reference. -/
structure CTEventInput where
  event_name : Option String := none
  event_source : Option String := none
  resources : List (Option String) := []

/-- Action accumulation for one event (lines 340-346): when both event_name
and event_source are truthy, add service:eventName where the service is the
event source with ".amazonaws.com" removed. -/
def actStep (acc : List String) (e : CTEventInput) : List String :=
  match pyTruthyStr e.event_name with
  | none => acc
  | some name =>
    match pyTruthyStr e.event_source with
    | none => acc
    | some src => setAdd acc (pyReplace src ".amazonaws.com" "" ++ ":" ++ name)

/-- The derived action set (lines 336-346). -/
def deriveActions (events : List CTEventInput) : List String :=
  events.foldl actStep []

/-- Resource accumulation for one resource reference (lines 350-352): a
truthy ResourceName is added. -/
def resItemStep (acc : List String) (r : Option String) : List String :=
  match pyTruthyStr r with
  | some rn => setAdd acc rn
  | none => acc

/-- Resource accumulation for one event (lines 348-352). -/
def resStep (acc : List String) (e : CTEventInput) : List String :=
  if e.resources.isEmpty then acc else e.resources.foldl resItemStep acc

/-- The derived resource set (lines 336-352). -/
def deriveResources (events : List CTEventInput) : List String :=
  events.foldl resStep []

/-- The resource list of the permission statement (lines 354-356): the
wildcard when no resource reference was found. -/
def finalResources (events : List CTEventInput) : List String :=
  if (deriveResources events).isEmpty then ["*"] else deriveResources events

/-- The action list of the permission statement (line 378): one safe
read-only fallback action when the derived set is empty. -/
def finalActions (events : List CTEventInput) : List String :=
  if (deriveActions events).isEmpty then ["s3:GetObject"] else deriveActions events

/-- `create_least_privilege_role_from_events`: analyzes the events, builds
the default trust policy and the single permission policy, and runs the
provisioner with them. -/
def create_least_privilege_role_from_events {σ : Type} (env : RCEnv σ) (role_name : String)
    (cloudtrail_events : List CTEventInput) (customer_account_id : Option String)
    (cross_account_role_name : String) (external_id : Option String) (s : σ) :
    Json × σ × List Call :=
  AWSRoleCreator_run env
    { role_name := role_name,
      trust_policy :=
        [("Version", Json.s "2012-10-17"),
         ("Statement", Json.arr [Json.obj
           [("Effect", Json.s "Allow"),
            ("Principal", Json.obj [("Service", Json.arr
              [Json.s "ec2.amazonaws.com", Json.s "lambda.amazonaws.com"])]),
            ("Action", Json.s "sts:AssumeRole")]])],
      permission_policies :=
        [Json.obj [("Version", Json.s "2012-10-17"),
                   ("Statement", Json.arr [Json.obj
                     [("Effect", Json.s "Allow"),
                      ("Action", Json.arr ((finalActions cloudtrail_events).map Json.s)),
                      ("Resource", Json.arr
                        ((finalResources cloudtrail_events).map Json.s))]])]],
      description := some "Least-privilege role created from CloudTrail analysis",
      customer_account_id := customer_account_id,
      cross_account_role_name := cross_account_role_name,
      external_id := external_id } s

/-- Helper: membership in the set model. -/
theorem setAdd_mem (l : List String) (x a : String) :
    a ∈ setAdd l x ↔ a ∈ l ∨ a = x := by
  unfold setAdd
  by_cases hx : x ∈ l
  · rw [if_pos hx]
    constructor
    · exact Or.inl
    · rintro (h | h)
      · exact h
      · rw [h]; exact hx
  · rw [if_neg hx]
    simp [List.mem_append]

/-- Helper: what one action step contributes. -/
theorem actStep_mem (acc : List String) (e : CTEventInput) (a : String) :
    a ∈ actStep acc e ↔ a ∈ acc ∨ ∃ name src,
      pyTruthyStr e.event_name = some name ∧ pyTruthyStr e.event_source = some src ∧
      a = pyReplace src ".amazonaws.com" "" ++ ":" ++ name := by
  unfold actStep
  cases hn : pyTruthyStr e.event_name with
  | none => simp [hn]
  | some name0 =>
    cases hs : pyTruthyStr e.event_source with
    | none => simp [hn, hs]
    | some src0 => simp [hn, hs, setAdd_mem]

/-- Helper: membership in the action fold. -/
theorem deriveActions_aux (a : String) :
    ∀ (events : List CTEventInput) (acc : List String),
      a ∈ events.foldl actStep acc ↔ a ∈ acc ∨ ∃ e ∈ events, ∃ name src,
        pyTruthyStr e.event_name = some name ∧ pyTruthyStr e.event_source = some src ∧
        a = pyReplace src ".amazonaws.com" "" ++ ":" ++ name := by
  intro events
  induction events with
  | nil => intro acc; simp
  | cons e rest ih =>
    intro acc
    rw [List.foldl_cons, ih (actStep acc e), actStep_mem]
    constructor
    · rintro ((h | ⟨name, src, h1, h2, h3⟩) | ⟨e2, he2, h⟩)
      · exact Or.inl h
      · exact Or.inr ⟨e, List.mem_cons_self _ _, name, src, h1, h2, h3⟩
      · exact Or.inr ⟨e2, List.mem_cons_of_mem _ he2, h⟩
    · rintro (h | ⟨e2, he2, h⟩)
      · exact Or.inl (Or.inl h)
      · rcases List.mem_cons.mp he2 with he | he
        · rw [← he]
          exact Or.inl (Or.inr h)
        · exact Or.inr ⟨e2, he, h⟩

/-- Helper: a resource fold over only falsy references adds nothing. -/
theorem resItem_all_none :
    ∀ (rs : List (Option String)) (acc : List String),
      (∀ r ∈ rs, pyTruthyStr r = none) → rs.foldl resItemStep acc = acc := by
  intro rs
  induction rs with
  | nil => intro acc _; rfl
  | cons r rest ih =>
    intro acc hall
    rw [List.foldl_cons]
    have h0 : resItemStep acc r = acc := by
      unfold resItemStep
      rw [hall r (List.mem_cons_self _ _)]
    rw [h0]
    exact ih acc (fun r2 hr2 => hall r2 (List.mem_cons_of_mem _ hr2))

/-- Helper: an event with only falsy resource references adds nothing. -/
theorem resStep_all_none (acc : List String) (e : CTEventInput)
    (hall : ∀ r ∈ e.resources, pyTruthyStr r = none) : resStep acc e = acc := by
  unfold resStep
  by_cases he : e.resources.isEmpty
  · rw [if_pos he]
  · rw [if_neg he]
    exact resItem_all_none e.resources acc hall

/-- Helper: with no truthy resource reference anywhere, the derived resource
set stays empty. -/
theorem deriveResources_all_none :
    ∀ (events : List CTEventInput) (acc : List String),
      (∀ e ∈ events, ∀ r ∈ e.resources, pyTruthyStr r = none) →
      events.foldl resStep acc = acc := by
  intro events
  induction events with
  | nil => intro acc _; rfl
  | cons e rest ih =>
    intro acc hall
    rw [List.foldl_cons, resStep_all_none acc e (hall e (List.mem_cons_self _ _))]
    exact ih acc (fun e2 he2 => hall e2 (List.mem_cons_of_mem _ he2))

/-- C9: every derived action identifier is exactly the source service (the
event source with ".amazonaws.com" removed) joined by a colon to the action
name, and every truthy name/source pair contributes its identifier; when no
truthy resource reference exists across all events the resource list of the
permission statement is exactly the wildcard; and when the derived action
set is empty the statement holds exactly the one safe read-only fallback
action. -/
theorem c9_synthesizer_derivation (events : List CTEventInput) :
    (∀ a, a ∈ deriveActions events ↔ ∃ e ∈ events, ∃ name src,
      pyTruthyStr e.event_name = some name ∧ pyTruthyStr e.event_source = some src ∧
      a = pyReplace src ".amazonaws.com" "" ++ ":" ++ name) ∧
    ((∀ e ∈ events, ∀ r ∈ e.resources, pyTruthyStr r = none) →
      finalResources events = ["*"]) ∧
    (deriveActions events = [] → finalActions events = ["s3:GetObject"]) := by
  refine ⟨?_, ?_, ?_⟩
  · intro a
    rw [show deriveActions events = events.foldl actStep [] from rfl, deriveActions_aux]
    simp
  · intro hall
    unfold finalResources
    rw [show deriveResources events = events.foldl resStep [] from rfl,
      deriveResources_all_none events [] hall]
    rfl
  · intro h
    unfold finalActions
    rw [h]
    rfl

/-- One event naming an s3 action with an empty (falsy) resource reference. -/
def c9Event : CTEventInput :=
  { event_name := some "ListBuckets", event_source := some "s3.amazonaws.com",
    resources := [some ""] }

/-- The witness event list. -/
def c9Events : List CTEventInput := [c9Event]

/-- Witness for C9: the s3 event derives s3:ListBuckets, the falsy resource
reference leaves the wildcard, and the empty event list gets the fallback
action. -/
theorem c9_synthesizer_derivation_witness :
    ("s3:ListBuckets" ∈ deriveActions c9Events) ∧
    finalResources c9Events = ["*"] ∧
    finalActions [] = ["s3:GetObject"] :=
  ⟨((c9_synthesizer_derivation c9Events).1 "s3:ListBuckets").mpr
      ⟨c9Event, List.mem_cons_self _ _, "ListBuckets", "s3.amazonaws.com", rfl, rfl, rfl⟩,
   (c9_synthesizer_derivation c9Events).2.1 (by decide),
   (c9_synthesizer_derivation []).2.2 rfl⟩
